import Mathlib

/-!
A verification development for the influxdb-client-go write pipeline and
annotated-CSV row decoder.

The definitions below are shallow embeddings of the Go source:

* `Write.pow`, `Write.computeRetryDelay` embed `pow` and
  `WriteAPIImpl.computeRetryDelay` (exponential backoff), with Go `uint`
  arithmetic modelled as `Nat` reduced modulo `2^64` and Go `int` as a
  64-bit two's-complement reinterpretation of those bits.  The call
  `rand.Intn(maxDelay-minDelay)` is modelled by an oracle argument `r`
  (the value returned by the generator); `rand.Intn` panics when its
  argument is not positive, which is modelled by returning `none`.
* `Write.queuePush`, `Write.removeIfFirst`, `Write.first` embed the
  bounded retry queue (`Queue.Push`, `Queue.RemoveIfFirst`, `Queue.First`
  from the internal write package).  Batches are heap-allocated in Go and
  compared by pointer identity, so the queue holds batch identifiers
  (indices into an explicit heap list) rather than batch values.
* `Write.sendBatch` embeds `WriteAPIImpl.sendBatch`, its expired-batch
  scan loop (`Write.expiredScan`) and the surrounding state updates.
  A `none` result models a Go runtime panic (nil dereference in the scan
  loop, `list.Remove(nil)` in `Queue.Push`, or `rand.Intn` with a
  non-positive argument).  The outcome of `service.WriteBatch` is an
  oracle argument (`perror`), and calls of the service / retry-timer
  scheduling are recorded as an event trace.
* `AnnotatedCSV.convLookup`, `AnnotatedCSV.fieldSetters`,
  `AnnotatedCSV.convertColumnValue`, `AnnotatedCSV.decodeRow` and
  `AnnotatedCSV.decodeStringSlice` embed the conversion matrix built in
  `init()` of annotatedcsv/decode.go, `fieldSetters`,
  `convertColumnValue` and the slice branch of `Reader.Decode`.
-/

namespace Write

/-- `2^64`, the modulus of Go `uint` arithmetic. -/
def U64 : Nat := 2 ^ 64

/-- Reinterpret a 64-bit unsigned value as a Go `int` (two's complement). -/
def toInt64 (u : Nat) : Int :=
  if u < 2 ^ 63 then (u : Int) else (u : Int) - (2 : Int) ^ 64

/-- Reduce an integer to its 64-bit unsigned representation,
as the Go conversion `uint(x)` does for an `int` value. -/
def wrap64 (i : Int) : Nat := (i % ((2 : Int) ^ 64)).toNat

/-- Embeds `pow` (api/write.go): `p := 1; for i := 1; i <= y; i++ { p = p * x }`
over Go `uint`, so every multiplication is reduced modulo `2^64`. -/
def pow (x : Nat) : Nat → Nat
  | 0 => 1
  | y + 1 => pow x y * x % U64

/-- The write options consulted by `computeRetryDelay` and `sendBatch`
(`MaxRetries`, `RetryInterval`, `MaxRetryInterval`, `ExponentialBase`),
all Go `uint` values. -/
structure WriteOptions where
  maxRetries : Nat
  retryInterval : Nat
  maxRetryInterval : Nat
  exponentialBase : Nat
  deriving DecidableEq

/-- The defaults documented for the options: `maxRetries = 5`,
`retryInterval = 5000` ms, `maxRetryInterval = 125000` ms, base 2. -/
def defaultWriteOptions : WriteOptions :=
  { maxRetries := 5, retryInterval := 5000, maxRetryInterval := 125000, exponentialBase := 2 }

/-- Embeds `WriteAPIImpl.computeRetryDelay`.  `attempts` is the current
`w.retryAttempts`; `r` is the oracle value produced by
`rand.Intn(maxDelay - minDelay)` (any value `0 ≤ r < maxDelay - minDelay`
can occur).  Returns `none` when `rand.Intn` would panic
(`maxDelay - minDelay ≤ 0` as a Go `int`). -/
def computeRetryDelay (o : WriteOptions) (attempts : Nat) (r : Nat) : Option Nat :=
  let minDelay : Int := toInt64 (o.retryInterval * pow o.exponentialBase attempts % U64)
  let maxDelay : Int := toInt64 (o.retryInterval * pow o.exponentialBase (attempts + 1) % U64)
  let diff : Int := toInt64 (wrap64 (maxDelay - minDelay))
  if diff ≤ 0 then none
  else
    let retryDelay : Nat := wrap64 ((r : Int) + minDelay)
    some (if retryDelay > o.maxRetryInterval then o.maxRetryInterval else retryDelay)

example : computeRetryDelay defaultWriteOptions 0 0 = some 5000 := by decide
example : computeRetryDelay defaultWriteOptions 5 0 = some 125000 := by decide

/-- Embeds the `Batch` struct of internal/write: the line-protocol payload
(`Batch`), the retry counter (`RetryAttempts`) and the expiry instant
(`Expires`, wall-clock milliseconds as an integer). The transient
`Evicted` flag is unused by the embedded code paths. -/
structure Batch where
  content : String
  retryAttempts : Nat
  expires : Int
  deriving DecidableEq

/-- Go batches are heap-allocated and shared by pointer between the queue
and `sendBatch`; the heap is a list of batch records and a "pointer" is an
index into it. -/
abbrev Heap := List Batch

/-- Dereference a batch pointer (a well-formed state never indexes out of
range; the default record is never reached in the proofs below). -/
def heapGet (h : Heap) (i : Nat) : Batch := h.getD i ⟨"", 0, 0⟩

/-- Overwrite the batch record a pointer refers to. -/
def heapSet (h : Heap) (i : Nat) (b : Batch) : Heap := List.set h i b

/-- Embeds `Queue.Push` (internal/write/queue.go): when `len == limit`
remove the front and report overflow, then append at the back.
`none` models the panic of `list.Remove(list.Front())` when the list is
empty (only possible when `limit = 0`). -/
def queuePush (limit : Nat) (q : List Nat) (b : Nat) : Option (List Nat × Bool) :=
  if q.length = limit then
    match q with
    | [] => none
    | _ :: t => some (t ++ [b], true)
  else some (q ++ [b], false)

/-- Embeds `Queue.RemoveIfFirst`: remove the front element only when it is
pointer-identical to `b`. -/
def removeIfFirst (q : List Nat) (b : Nat) : List Nat :=
  match q with
  | [] => []
  | x :: t => if x = b then t else x :: t

/-- Embeds `Queue.First`: peek the front element, `none` when empty. -/
def first (q : List Nat) : Option Nat := q.head?

/-- Embeds `Queue.IsEmpty`. -/
def isEmpty (q : List Nat) : Bool := q.length == 0

/-- Embeds the `http.Error` data consulted by `sendBatch`:
`StatusCode` (0 for transport errors) and `RetryAfter` (seconds). -/
structure WriteError where
  statusCode : Nat
  retryAfter : Nat
  deriving DecidableEq

/-- The retry decision of `sendBatch` line 291:
`MaxRetries() != 0 && (StatusCode == 0 || StatusCode >= 429)`. -/
def retryableError (e : WriteError) : Prop :=
  e.statusCode = 0 ∨ 429 ≤ e.statusCode

instance (e : WriteError) : Decidable (retryableError e) := by
  unfold retryableError; infer_instance

/-- The mutable coordinator state touched by `sendBatch`:
the batch heap, the retry queue (batch pointers, oldest first) with its
capacity, `retryDelay` (ms), `retryAttempts`, and the write service's
`LastWriteAttempt` (ms). -/
structure WState where
  heap : Heap
  queue : List Nat
  limit : Nat
  retryDelay : Nat
  retryAttempts : Nat
  lastWriteAttempt : Int
  deriving DecidableEq

/-- Observable actions of one `sendBatch` call: a call of
`service.WriteBatch` on a batch, and the arming of a retry timer for a
batch with the current `retryDelay` (in `scheduleRetry`). -/
inductive Event
  | wroteService (bid : Nat)
  | scheduledRetry (bid : Nat) (delayMs : Nat)
  deriving DecidableEq

/-- The error returns of `sendBatch`, in source order:
"cannot write before emptying retry queue", "cannot write yet",
the raw `perror` returned when the failure callback rejects the batch,
and `"write failed (attempts %d): %w"`. -/
inductive SBErr
  | emptyRetryQueueFirst
  | cannotWriteYet
  | callbackRejected (e : WriteError)
  | writeFailed (attempts : Nat) (e : WriteError)
  deriving DecidableEq

/-- Result of one `sendBatch` call: the new state, the returned error
(`none` = nil), and the event trace. -/
structure SBOut where
  state : WState
  res : Option SBErr
  events : List Event
  deriving DecidableEq

/-- Embeds the expired-batch loop of `sendBatch` (lines 251-264): while
`time.Now().After(front.Expires)`, remove the front; record whether the
arriving batch `b` itself was discarded (`batchToWrite = nil`).  The
loop reads `rb.Expires` without a nil check, so reaching an empty queue
(`First()` returning nil) is a nil-pointer panic, modelled as `none`. -/
def expiredScan (heap : Heap) (now : Int) (b : Nat) : List Nat → Option (List Nat × Bool)
  | [] => none
  | rb :: rest =>
    if (heapGet heap rb).expires < now then
      match expiredScan heap now b rest with
      | none => none
      | some (q, disc) => some (q, disc || rb == b)
    else
      some (rb :: rest, false)

/-- The scan is guarded by `!w.retryQueue.IsEmpty()` (line 250). -/
def checkExpired (heap : Heap) (now : Int) (b : Nat) (queue : List Nat) :
    Option (List Nat × Bool) :=
  if isEmpty queue then some (queue, false) else expiredScan heap now b queue

/-- The retry delay chosen on a retryable failure (lines 293-297):
`RetryAfter * 1000` when the response carried Retry-After, otherwise
`computeRetryDelay` (whose random draw is the oracle `r`). -/
def failureRetryDelay (o : WriteOptions) (e : WriteError) (attempts r : Nat) : Option Nat :=
  if e.retryAfter > 0 then some (e.retryAfter * 1000 % U64)
  else computeRetryDelay o attempts r

/-- Line 283: when the arriving batch was discarded by the expiry scan,
take the queue front instead (only while retrying and the queue is
non-empty). -/
def pickBatch (retrying discarded : Bool) (b : Nat) (q : List Nat) : Option Nat :=
  if discarded then
    (if retrying ∧ ¬ isEmpty q then first q else none)
  else some b

/-- Embeds `WriteAPIImpl.sendBatch` (api/write.go lines 244-333).
Oracles: `now` (wall clock in ms, fixed for the call), `perror` (the
outcome of `service.WriteBatch`, `none` = success), `cb` (the registered
write-failed callback, if any) and `r` (the random draw inside
`computeRetryDelay`).  A `none` result models a runtime panic. -/
def sendBatch (o : WriteOptions) (cb : Option (String → WriteError → Nat → Bool))
    (s : WState) (b : Nat) (now : Int) (perror : Option WriteError) (r : Nat) :
    Option SBOut :=
  let retrying := 0 < s.retryAttempts
  match checkExpired s.heap now b s.queue with
  | none => none
  | some (q1, discarded) =>
    if retrying ∧ (heapGet s.heap b).retryAttempts = 0 then
      -- new batches must be added to the queue while retrying
      match queuePush s.limit q1 b with
      | none => none
      | some (q2, _) => some ⟨{ s with queue := q2 }, some .emptyRetryQueueFirst, []⟩
    else if 0 < s.retryDelay ∧ now < s.lastWriteAttempt + (s.retryDelay : Int) then
      -- backoff gate: `b.RetryAttempts == 0 && w.retryQueue.Push(b)` short-circuits
      if (heapGet s.heap b).retryAttempts = 0 then
        match queuePush s.limit q1 b with
        | none => none
        | some (q2, _) => some ⟨{ s with queue := q2 }, some .cannotWriteYet, []⟩
      else some ⟨{ s with queue := q1 }, some .cannotWriteYet, []⟩
    else
      match pickBatch retrying discarded b q1 with
      | none => some ⟨{ s with queue := q1 }, none, []⟩
      | some bw =>
        -- service.WriteBatch records LastWriteAttempt = now, then posts
        match perror with
        | none =>
          if retrying then
            let q2 := removeIfFirst q1 bw
            if isEmpty q2 then
              some ⟨{ s with
                      queue := q2, retryDelay := 0, retryAttempts := 0,
                      lastWriteAttempt := now }, none, [.wroteService bw]⟩
            else
              some ⟨{ s with
                      queue := q2, retryDelay := 1, retryAttempts := 0,
                      lastWriteAttempt := now }, none,
                    [.wroteService bw, .scheduledRetry (q2.headD 0) 1]⟩
          else
            some ⟨{ s with
                    queue := q1, retryDelay := 0, retryAttempts := 0,
                    lastWriteAttempt := now }, none, [.wroteService bw]⟩
        | some e =>
          if o.maxRetries ≠ 0 ∧ retryableError e then
            match failureRetryDelay o e s.retryAttempts r with
            | none => none
            | some rd =>
              let bwRec := heapGet s.heap bw
              let rejected : Bool :=
                match cb with
                | some f => ! f bwRec.content e bwRec.retryAttempts
                | none => false
              if rejected then
                some ⟨{ s with
                        queue := removeIfFirst q1 bw, retryDelay := rd,
                        lastWriteAttempt := now }, some (.callbackRejected e),
                      [.wroteService bw]⟩
              else
                let step : Option (List Nat × List Event) :=
                  if bwRec.retryAttempts = 0 then
                    match queuePush s.limit q1 b with
                    | none => none
                    | some (q2, _) => some (q2, [.scheduledRetry b rd])
                  else if bwRec.retryAttempts = o.maxRetries then
                    some (removeIfFirst q1 bw, [])
                  else some (q1, [])
                match step with
                | none => none
                | some (q2, evs) =>
                  some ⟨{ s with
                          queue := q2, retryDelay := rd,
                          heap := heapSet s.heap bw
                            { bwRec with retryAttempts := bwRec.retryAttempts + 1 },
                          retryAttempts := s.retryAttempts + 1,
                          lastWriteAttempt := now },
                        some (.writeFailed (bwRec.retryAttempts + 1) e),
                        .wroteService bw :: evs⟩
          else
            some ⟨{ s with queue := q1, lastWriteAttempt := now },
                  some (.writeFailed (heapGet s.heap bw).retryAttempts e),
                  [.wroteService bw]⟩

end Write

namespace AnnotatedCSV

/-- Modelled from the spec: the `Column` record of the annotated-CSV
reader (its Go definition sits in the reader file, outside the decoder
source): `name`, `type` (annotated CSV type name), `group`, `default`. -/
structure Column where
  name : String
  type : String
  group : Bool
  default : String
  deriving DecidableEq

/-- Embeds the `colType` constants of decode.go (integer-coded annotated
CSV column types), in declaration order. -/
inductive ColType
  | stringCol
  | boolCol
  | durationCol
  | longCol
  | uLongCol
  | doubleCol
  | base64BinaryCol
  | timeColRFC
  | timeColRFCNano
  deriving DecidableEq

/-- Embeds the destination kinds used by the conversion matrix: the
`reflect.Kind` values that occur in `intKinds`, `uintKinds`,
`floatKinds`, `Bool`, `String`, `Interface`, plus the extended kinds
`durationKind`, `timeKind`, `bytesKind` of decode.go. -/
inductive FieldKind
  | kInt
  | kInt8
  | kInt16
  | kInt32
  | kInt64
  | kUint
  | kUint8
  | kUint16
  | kUint32
  | kUint64
  | kFloat32
  | kFloat64
  | kBool
  | kString
  | kInterface
  | kDuration
  | kTime
  | kBytes
  deriving DecidableEq

/-- The converter functions installed in the `conversions` map, as tags:
`toInt`, `toUint`, `toFloat`, `toBool`, `toString`, `toDuration`,
`toBytes`, `toTime` and the per-column-type `toInterface` closures. -/
inductive SetterTag
  | sInt
  | sUint
  | sFloat
  | sBool
  | sString
  | sDuration
  | sBytes
  | sTime
  | sInterface (c : ColType)
  deriving DecidableEq

/-- Embeds `intKinds` of decode.go. -/
def intKinds : List FieldKind := [.kInt, .kInt8, .kInt16, .kInt32, .kInt64]

/-- Embeds `uintKinds` of decode.go. -/
def uintKinds : List FieldKind := [.kUint, .kUint8, .kUint16, .kUint32, .kUint64]

/-- Embeds `floatKinds` of decode.go. -/
def floatKinds : List FieldKind := [.kFloat32, .kFloat64]

/-- The index set of `canonicalTypes` (all nine column types, in order). -/
def canonicalCols : List ColType :=
  [.stringCol, .boolCol, .durationCol, .longCol, .uLongCol, .doubleCol,
   .base64BinaryCol, .timeColRFC, .timeColRFCNano]

/-- Embeds the `columnTypes` map of decode.go: annotated CSV type name to
integer column type. -/
def columnTypes (s : String) : Option ColType :=
  if s = "string" then some .stringCol
  else if s = "boolean" then some .boolCol
  else if s = "duration" then some .durationCol
  else if s = "long" then some .longCol
  else if s = "unsignedLong" then some .uLongCol
  else if s = "double" then some .doubleCol
  else if s = "base64Binary" then some .base64BinaryCol
  else if s = "dateTime:RFC3339" then some .timeColRFC
  else if s = "dateTime:RFC3339Nano" then some .timeColRFCNano
  else if s = "dateTime" then some .timeColRFCNano
  else none

/-- The `conversions` map of decode.go as the sequence of assignments
performed by `init()`, in program order; a later assignment to the same
key overwrites an earlier one. -/
def conversionsList : List ((ColType × FieldKind) × SetterTag) :=
  (intKinds.map fun k => ((ColType.longCol, k), SetterTag.sInt))
    ++ (intKinds.map fun k => ((ColType.uLongCol, k), SetterTag.sInt))
    ++ (uintKinds.map fun k => ((ColType.uLongCol, k), SetterTag.sUint))
    ++ (floatKinds.map fun k => ((ColType.longCol, k), SetterTag.sFloat))
    ++ (floatKinds.map fun k => ((ColType.uLongCol, k), SetterTag.sFloat))
    ++ (floatKinds.map fun k => ((ColType.doubleCol, k), SetterTag.sFloat))
    ++ [((ColType.boolCol, FieldKind.kBool), SetterTag.sBool),
        ((ColType.stringCol, FieldKind.kString), SetterTag.sString),
        ((ColType.durationCol, FieldKind.kDuration), SetterTag.sDuration),
        ((ColType.base64BinaryCol, FieldKind.kBytes), SetterTag.sBytes),
        ((ColType.timeColRFC, FieldKind.kTime), SetterTag.sTime),
        ((ColType.timeColRFCNano, FieldKind.kTime), SetterTag.sTime)]
    ++ (canonicalCols.map fun t => ((t, FieldKind.kInterface), SetterTag.sInterface t))
    ++ (canonicalCols.map fun t => ((t, FieldKind.kString), SetterTag.sString))

/-- Map lookup in `conversions`: the last assignment to a key wins. -/
def convLookup (c : ColType) (k : FieldKind) : Option SetterTag :=
  (conversionsList.reverse.find? fun e => e.1 = (c, k)).map (·.2)

/-- `fieldSetters` resolves `col.Type` through `columnTypes`, treating an
unrecognized name as `stringCol` ("ignore invalid type and use string"). -/
def colTypeOf (s : String) : ColType := (columnTypes s).getD .stringCol

/-- A rendering of the destination kind for the setup error message
(decode.go formats the full Go type with `%v`; only the kind is kept
here). -/
def kindName : FieldKind → String
  | .kInt => "int"
  | .kInt8 => "int8"
  | .kInt16 => "int16"
  | .kInt32 => "int32"
  | .kInt64 => "int64"
  | .kUint => "uint"
  | .kUint8 => "uint8"
  | .kUint16 => "uint16"
  | .kUint32 => "uint32"
  | .kUint64 => "uint64"
  | .kFloat32 => "float32"
  | .kFloat64 => "float64"
  | .kBool => "bool"
  | .kString => "string"
  | .kInterface => "interface"
  | .kDuration => "time.Duration"
  | .kTime => "time.Time"
  | .kBytes => "bytes"

/-- Embeds `fieldSetters` of decode.go: for each column, resolve the
destination kind with `f` (`nil` destination leaves a nil setter and
continues), then look the pair up in the conversion matrix; a missing
entry is the setup error `cannot convert from column type <X> to <Y>`. -/
def fieldSetters (cols : List Column) (f : Column → Option FieldKind) :
    Except String (List (Option SetterTag)) :=
  match cols with
  | [] => .ok []
  | col :: rest =>
    match f col with
    | none =>
      match fieldSetters rest f with
      | .error e => .error e
      | .ok l => .ok (none :: l)
    | some k =>
      match convLookup (colTypeOf col.type) k with
      | none => .error ("cannot convert from column type " ++ col.type ++ " to " ++ kindName k)
      | some tag =>
        match fieldSetters rest f with
        | .error e => .error e
        | .ok l => .ok (some tag :: l)

/-- Embeds `stringTernary` of decode.go: the second argument when the
first is empty, otherwise the first. -/
def stringTernary (s d : String) : String := if s ≠ "" then s else d

/-- The exact wrapper format of `convertColumnValue`:
`cannot convert value "<v>" to type "<T>" at line <N>: <cause>`. -/
def convErrMsg (v colTy : String) (line : Nat) (cause : String) : String :=
  "cannot convert value \"" ++ v ++ "\" to type \"" ++ colTy ++ "\" at line "
    ++ toString line ++ ": " ++ cause

/-- A converter: takes the (possibly default-substituted) cell text and
either produces the converted value or fails with a cause.  The value
type is `String` here because the theorems below only exercise
string-valued destinations; failing converters of other destinations are
quantified over as arbitrary functions of this shape. -/
abbrev Setter := String → Except String String

/-- Embeds `Reader.convertColumnValue` for one column: substitute the
column default for an empty cell, apply the cached converter, and wrap a
converter failure in the `cannot convert value ...` message. -/
def convertColumnValue (setter : Setter) (cell : String) (col : Column) (line : Nat) :
    Except String String :=
  let s := stringTernary cell col.default
  match setter s with
  | .ok v => .ok v
  | .error cause => .error (convErrMsg s col.type line cause)

/-- The per-row loop of the slice branch of `Reader.Decode`
(`for i := 0; i < c; i++ { convertColumnValue(e.Index(i), i) }`):
convert every column of the current row in order, stopping at the first
error.  The three lists walk in lockstep (the reader's width check
guarantees `len(row) = len(cols)`; `colSetters` is built per column). -/
def decodeRow : List Setter → List Column → List String → Nat → Except String (List String)
  | _, [], _, _ => .ok []
  | setter :: st, col :: ct, cell :: rt, line =>
    match convertColumnValue setter cell col line with
    | .error e => .error e
    | .ok v =>
      match decodeRow st ct rt line with
      | .error e => .error e
      | .ok vs => .ok (v :: vs)
  | _, _ :: _, _, _ => .error "index out of range"

/-- The semantics of the setter tags for a `string` destination.
`toString` (`v.SetString(s); return nil`) never fails; no other tag is
ever looked up for a string destination (`stringSetters_sString` below),
so the remaining branches are unreachable in `decodeStringSlice`. -/
def interpStringSetter : SetterTag → Setter
  | .sString => fun s => .ok s
  | _ => fun _ => .error "non-string setter applied to string destination"

/-- Embeds `Reader.Decode` for a pointer to `[]string`:
`initColumns` resolves every column to the `string` kind
(`f = func(col Column) reflect.Type { return s }` with `s = string`),
then the slice is grown when nil or shorter than the column count
(`reflect.MakeSlice`, zero-valued) and reused otherwise, and each of the
first `len(cols)` elements is set from the current row. -/
def decodeStringSlice (cols : List Column) (row : List String) (existing : List String)
    (line : Nat) : Except String (List String) :=
  match fieldSetters cols (fun _ => some FieldKind.kString) with
  | .error e => .error e
  | .ok tags =>
    let setters := tags.map fun t =>
      match t with
      | some tag => interpStringSetter tag
      | none => fun s => .ok s
    match decodeRow setters cols row line with
    | .error e => .error e
    | .ok vals =>
      let c := cols.length
      let e0 := if existing.length < c then List.replicate c "" else existing
      .ok (vals ++ e0.drop c)

end AnnotatedCSV


namespace Write

lemma pow_eq (x y : Nat) : pow x y = x ^ y % U64 := by
  induction y with
  | zero =>
    unfold pow U64
    simp
  | succ n ih =>
    unfold pow
    rw [ih, Nat.pow_succ, Nat.mod_mul_mod]

/-- Claim C1 (amended): after `n` consecutive retryable failures whose
responses carried no Retry-After, provided the backoff products stay below
`2^63` (no overflow) and for every outcome `r` of the random draw,
`computeRetryDelay` returns a delay in the closed interval
from `min(retryInterval*base^n, maxRetryInterval)`
to `min(retryInterval*base^(n+1), maxRetryInterval)`: the upper clamp to
`maxRetryInterval` also lowers the lower end of the claimed interval. -/
theorem computeRetryDelay_bounds (o : WriteOptions) (n r : Nat)
    (hri : 1 ≤ o.retryInterval) (hb : 2 ≤ o.exponentialBase)
    (hof : o.retryInterval * o.exponentialBase ^ (n + 1) < 2 ^ 63)
    (hr : r < o.retryInterval * o.exponentialBase ^ (n + 1)
            - o.retryInterval * o.exponentialBase ^ n) :
    ∃ delay, computeRetryDelay o n r = some delay ∧
      min (o.retryInterval * o.exponentialBase ^ n) o.maxRetryInterval ≤ delay ∧
      delay ≤ min (o.retryInterval * o.exponentialBase ^ (n + 1)) o.maxRetryInterval := by
  have e63 : (2 : Nat) ^ 63 = 9223372036854775808 := by norm_num
  have e64 : U64 = 18446744073709551616 := by unfold U64; norm_num
  have hp : o.exponentialBase ^ n < o.exponentialBase ^ (n + 1) :=
    Nat.pow_lt_pow_succ (by omega)
  have hAB : o.retryInterval * o.exponentialBase ^ n
      < o.retryInterval * o.exponentialBase ^ (n + 1) :=
    mul_lt_mul_of_pos_left hp (by omega)
  have hinnerA : o.retryInterval * pow o.exponentialBase n % U64
      = o.retryInterval * o.exponentialBase ^ n := by
    rw [pow_eq, Nat.mul_comm o.retryInterval, Nat.mod_mul_mod, Nat.mul_comm]
    exact Nat.mod_eq_of_lt (by omega)
  have hinnerB : o.retryInterval * pow o.exponentialBase (n + 1) % U64
      = o.retryInterval * o.exponentialBase ^ (n + 1) := by
    rw [pow_eq, Nat.mul_comm o.retryInterval, Nat.mod_mul_mod, Nat.mul_comm]
    exact Nat.mod_eq_of_lt (by omega)
  have hminD : toInt64 (o.retryInterval * o.exponentialBase ^ n)
      = ((o.retryInterval * o.exponentialBase ^ n : Nat) : Int) := by
    unfold toInt64
    rw [if_pos (by omega)]
  have hmaxD : toInt64 (o.retryInterval * o.exponentialBase ^ (n + 1))
      = ((o.retryInterval * o.exponentialBase ^ (n + 1) : Nat) : Int) := by
    unfold toInt64
    rw [if_pos (by omega)]
  have hdiffN : wrap64 (((o.retryInterval * o.exponentialBase ^ (n + 1) : Nat) : Int)
      - ((o.retryInterval * o.exponentialBase ^ n : Nat) : Int))
      = o.retryInterval * o.exponentialBase ^ (n + 1)
        - o.retryInterval * o.exponentialBase ^ n := by
    unfold wrap64
    rw [← Nat.cast_sub (le_of_lt hAB)]
    rw [Int.emod_eq_of_lt (by positivity) (by push_cast [e64]; exact_mod_cast (by omega :
      o.retryInterval * o.exponentialBase ^ (n + 1) - o.retryInterval * o.exponentialBase ^ n
        < 18446744073709551616))]
    exact Int.toNat_natCast _
  have hdiff64 : toInt64 (o.retryInterval * o.exponentialBase ^ (n + 1)
      - o.retryInterval * o.exponentialBase ^ n)
      = ((o.retryInterval * o.exponentialBase ^ (n + 1)
          - o.retryInterval * o.exponentialBase ^ n : Nat) : Int) := by
    unfold toInt64
    rw [if_pos (by omega)]
  have hsum : wrap64 ((r : Int) + ((o.retryInterval * o.exponentialBase ^ n : Nat) : Int))
      = r + o.retryInterval * o.exponentialBase ^ n := by
    unfold wrap64
    rw [← Nat.cast_add]
    rw [Int.emod_eq_of_lt (by positivity) (by
      have : r + o.retryInterval * o.exponentialBase ^ n < 18446744073709551616 := by omega
      push_cast [e64]
      exact_mod_cast this)]
    exact Int.toNat_natCast _
  unfold computeRetryDelay
  simp only [hinnerA, hinnerB, hminD, hmaxD, hdiffN, hdiff64, hsum]
  rw [if_neg (by
    rw [not_le]
    exact_mod_cast (by omega : 0 < o.retryInterval * o.exponentialBase ^ (n + 1)
      - o.retryInterval * o.exponentialBase ^ n))]
  refine ⟨_, rfl, ?_, ?_⟩
  · by_cases hc : r + o.retryInterval * o.exponentialBase ^ n > o.maxRetryInterval
    · rw [if_pos hc]
      omega
    · rw [if_neg hc]
      omega
  · by_cases hc : r + o.retryInterval * o.exponentialBase ^ n > o.maxRetryInterval
    · rw [if_pos hc]
      omega
    · rw [if_neg hc]
      omega

/-- Witness for C1 (amended) at the default options, `n = 5`, `r = 0`. -/
theorem computeRetryDelay_bounds_witness :
    (1 ≤ defaultWriteOptions.retryInterval ∧ 2 ≤ defaultWriteOptions.exponentialBase ∧
      defaultWriteOptions.retryInterval * defaultWriteOptions.exponentialBase ^ (5 + 1) < 2 ^ 63 ∧
      0 < defaultWriteOptions.retryInterval * defaultWriteOptions.exponentialBase ^ (5 + 1)
        - defaultWriteOptions.retryInterval * defaultWriteOptions.exponentialBase ^ 5) ∧
    ∃ delay, computeRetryDelay defaultWriteOptions 5 0 = some delay ∧
      min (defaultWriteOptions.retryInterval * defaultWriteOptions.exponentialBase ^ 5)
        defaultWriteOptions.maxRetryInterval ≤ delay ∧
      delay ≤ min (defaultWriteOptions.retryInterval * defaultWriteOptions.exponentialBase ^ (5 + 1))
        defaultWriteOptions.maxRetryInterval := by
  refine ⟨⟨by decide, by decide, by decide, by decide⟩, ?_⟩
  exact computeRetryDelay_bounds defaultWriteOptions 5 0 (by decide) (by decide)
    (by decide) (by decide)

/-- Claim C1 counterexample: with the default options after `n = 5`
consecutive retryable failures, `computeRetryDelay` returns 125000 ms
(the `maxRetryInterval` clamp), which is below the claimed lower bound
`retryInterval*base^5 = 160000` ms, so the returned delay does not lie in
`[retryInterval*base^n, min(retryInterval*base^(n+1), maxRetryInterval)]`. -/
theorem computeRetryDelay_interval_counterexample :
    computeRetryDelay defaultWriteOptions 5 0 = some 125000 ∧
    ¬ (defaultWriteOptions.retryInterval * defaultWriteOptions.exponentialBase ^ 5 ≤ 125000) := by
  constructor
  · decide
  · decide

end Write


namespace Write

lemma queueIsEmpty_iff (q : List Nat) : isEmpty q = true ↔ q = [] := by
  unfold isEmpty
  cases q <;> simp

/-- Claim C2: for every queue of capacity `C >= 1`, a push when the queue
holds exactly `C` batches removes the front (oldest) element, appends the
new batch at the back and reports overflow (`true`); a push when the queue
holds fewer than `C` appends at the back and reports `false`; and a push
from any state within capacity stays within capacity, so the queue never
holds more than `C` batches. -/
theorem queue_push_capacity (C : Nat) (q : List Nat) (b : Nat) (hC : 1 ≤ C) :
    (q.length = C → queuePush C q b = some (q.tail ++ [b], true)) ∧
    (q.length < C → queuePush C q b = some (q ++ [b], false)) ∧
    (∀ q2 ov, q.length ≤ C → queuePush C q b = some (q2, ov) → q2.length ≤ C) := by
  refine ⟨?_, ?_, ?_⟩
  · intro h
    unfold queuePush
    rw [if_pos h]
    cases q with
    | nil => simp at h; omega
    | cons x t => rfl
  · intro h
    unfold queuePush
    rw [if_neg (by omega)]
  · intro q2 ov hle hp
    unfold queuePush at hp
    by_cases hq : q.length = C
    · rw [if_pos hq] at hp
      cases q with
      | nil => exact absurd hp (by simp)
      | cons x t =>
        cases hp
        simp at hq ⊢
        omega
    · rw [if_neg hq] at hp
      cases hp
      simp
      omega

/-- Witness for C2 at capacity 2: a full queue overflows, a non-full one
appends. -/
theorem queue_push_capacity_witness :
    (1 ≤ 2 ∧ queuePush 2 [5, 7] 9 = some ([7, 9], true)) ∧
    queuePush 2 [5] 9 = some ([5, 9], false) := by
  refine ⟨⟨by decide, ?_⟩, ?_⟩
  · exact (queue_push_capacity 2 [5, 7] 9 (by decide)).1 (by decide)
  · exact (queue_push_capacity 2 [5] 9 (by decide)).2.1 (by decide)

/-- Claim C10: whenever `sendBatch` enters the expired-batch removal loop
with a non-empty retry queue containing at least one unexpired batch, the
loop terminates normally with a `some` result; the `none` result, which
models the loop reading `rb.Expires` from a nil `First()`, is never
reached. -/
theorem expiredScan_no_nil_head (heap : Heap) (now : Int) (b : Nat) (q : List Nat)
    (hne : q ≠ []) (hunexp : ∃ x ∈ q, ¬ (heapGet heap x).expires < now) :
    ∃ res, checkExpired heap now b q = some res := by
  have main : ∀ q : List Nat, (∃ x ∈ q, ¬ (heapGet heap x).expires < now) →
      ∃ res, expiredScan heap now b q = some res := by
    intro q hq
    induction q with
    | nil => simp at hq
    | cons rb rest ih =>
      unfold expiredScan
      by_cases hexp : (heapGet heap rb).expires < now
      · rw [if_pos hexp]
        obtain ⟨x, hx, hxe⟩ := hq
        rcases List.mem_cons.mp hx with h | h
        · exact absurd hexp (h ▸ hxe)
        · obtain ⟨res, hres⟩ := ih ⟨x, h, hxe⟩
          rw [hres]
          exact ⟨_, rfl⟩
      · rw [if_neg hexp]
        exact ⟨_, rfl⟩
  unfold checkExpired
  rw [if_neg (by simpa [queueIsEmpty_iff] using hne)]
  exact main q hunexp

/-- Witness for C10: a queue with an expired front and an unexpired second
batch scans without panic. -/
theorem expiredScan_no_nil_head_witness :
    (([0, 1] : List Nat) ≠ [] ∧ ∃ x ∈ ([0, 1] : List Nat),
        ¬ (heapGet [⟨"a", 0, 1⟩, ⟨"b", 0, 10⟩] x).expires < (5 : Int)) ∧
    ∃ res, checkExpired [⟨"a", 0, 1⟩, ⟨"b", 0, 10⟩] 5 0 [0, 1] = some res := by
  refine ⟨⟨by decide, ⟨1, by decide, by decide⟩⟩, ?_⟩
  exact expiredScan_no_nil_head _ 5 0 _ (by decide) ⟨1, by decide, by decide⟩

end Write


namespace Write

lemma queuePush_mem (limit : Nat) (q : List Nat) (b : Nat) (h : 1 ≤ limit) :
    ∃ q2 ov, queuePush limit q b = some (q2, ov) ∧ b ∈ q2 := by
  unfold queuePush
  by_cases hq : q.length = limit
  · rw [if_pos hq]
    cases q with
    | nil => simp at hq; omega
    | cons x t => exact ⟨t ++ [b], true, rfl, by simp⟩
  · rw [if_neg hq]
    exact ⟨q ++ [b], false, rfl, by simp⟩

/-- Claim C3: whenever retrying is in progress (`retryAttempts > 0`) and
the arriving batch has `attempts = 0`, `sendBatch` pushes the arriving
batch onto the retry queue (possibly evicting the oldest) and returns the
"cannot write before emptying retry queue" error with an empty event
trace, so the write service is never called for that batch. -/
theorem sendBatch_queued_before_new (o : WriteOptions)
    (cb : Option (String → WriteError → Nat → Bool)) (s : WState) (b : Nat) (now : Int)
    (perror : Option WriteError) (r : Nat) (q1 : List Nat) (d : Bool)
    (hscan : checkExpired s.heap now b s.queue = some (q1, d))
    (hretry : 0 < s.retryAttempts)
    (hnew : (heapGet s.heap b).retryAttempts = 0)
    (hlimit : 1 ≤ s.limit) :
    ∃ q2 ov, queuePush s.limit q1 b = some (q2, ov) ∧ b ∈ q2 ∧
      sendBatch o cb s b now perror r =
        some ⟨{ s with queue := q2 }, some .emptyRetryQueueFirst, []⟩ := by
  obtain ⟨q2, ov, hpush, hmem⟩ := queuePush_mem s.limit q1 b hlimit
  refine ⟨q2, ov, hpush, hmem, ?_⟩
  unfold sendBatch
  rw [hscan]
  simp only [hpush]
  rw [if_pos ⟨hretry, hnew⟩]

/-- Claim C6: on a successful write, `sendBatch` resets `retryAttempts`
to 0 and clears `retryDelay`; when retrying was in progress the written
batch is removed from the queue front, and when the queue is then still
non-empty the next queued element is scheduled with a 1 ms delay (the
clear-then-set of `retryDelay` leaves it at 1 exactly in that case). -/
theorem sendBatch_success_resets (o : WriteOptions)
    (cb : Option (String → WriteError → Nat → Bool)) (s : WState) (b bw : Nat) (now : Int)
    (r : Nat) (q1 : List Nat) (d : Bool)
    (hscan : checkExpired s.heap now b s.queue = some (q1, d))
    (hnogate1 : ¬ (0 < s.retryAttempts ∧ (heapGet s.heap b).retryAttempts = 0))
    (hnogate2 : ¬ (0 < s.retryDelay ∧ now < s.lastWriteAttempt + (s.retryDelay : Int)))
    (hpick : pickBatch (decide (0 < s.retryAttempts)) d b q1 = some bw) :
    ∃ out, sendBatch o cb s b now none r = some out ∧
      out.res = none ∧ out.state.retryAttempts = 0 ∧
      (0 < s.retryAttempts →
        out.state.queue = removeIfFirst q1 bw ∧
        (removeIfFirst q1 bw = [] →
          out.state.retryDelay = 0 ∧ out.events = [.wroteService bw]) ∧
        (removeIfFirst q1 bw ≠ [] →
          out.state.retryDelay = 1 ∧
          out.events = [.wroteService bw,
            .scheduledRetry ((removeIfFirst q1 bw).headD 0) 1])) ∧
      (¬ 0 < s.retryAttempts →
        out.state.queue = q1 ∧ out.state.retryDelay = 0 ∧
        out.events = [.wroteService bw]) := by
  unfold sendBatch
  rw [hscan]
  simp only []
  rw [if_neg hnogate1, if_neg hnogate2, hpick]
  dsimp only
  by_cases hret : 0 < s.retryAttempts
  · rw [if_pos hret]
    by_cases hq2 : removeIfFirst q1 bw = []
    · rw [if_pos ((queueIsEmpty_iff _).mpr hq2)]
      exact ⟨_, rfl, rfl, rfl,
        fun _ => ⟨rfl, fun _ => ⟨rfl, rfl⟩, fun hne => absurd hq2 hne⟩,
        fun h => absurd hret h⟩
    · rw [if_neg (fun h => hq2 ((queueIsEmpty_iff _).mp h))]
      exact ⟨_, rfl, rfl, rfl,
        fun _ => ⟨rfl, fun he => absurd he hq2, fun _ => ⟨rfl, rfl⟩⟩,
        fun h => absurd hret h⟩
  · rw [if_neg hret]
    exact ⟨_, rfl, rfl, rfl, fun h => absurd h hret, fun _ => ⟨rfl, rfl, rfl⟩⟩

end Write


namespace Write

lemma pickBatch_discarded_mem (retrying : Bool) (b : Nat) (q : List Nat) (bw : Nat)
    (h : pickBatch retrying true b q = some bw) : bw ∈ q := by
  unfold pickBatch at h
  rw [if_pos rfl] at h
  split at h
  · unfold first at h
    cases q with
    | nil => cases h
    | cons x t =>
      simp at h
      simp [h]
  · cases h

lemma expiredScan_decomp (heap : Heap) (now : Int) (b : Nat) :
    ∀ q q1 d, expiredScan heap now b q = some (q1, d) →
      ∃ dropped, q = dropped ++ q1 ∧
        (∀ x ∈ dropped, (heapGet heap x).expires < now) ∧
        (d = true ↔ b ∈ dropped) ∧
        (∀ h ∈ first q1, ¬ (heapGet heap h).expires < now) := by
  intro q
  induction q with
  | nil =>
    intro q1 d h
    exact absurd h (by unfold expiredScan; simp)
  | cons rb rest ih =>
    intro q1 d h
    unfold expiredScan at h
    by_cases hexp : (heapGet heap rb).expires < now
    · rw [if_pos hexp] at h
      cases hrec : expiredScan heap now b rest with
      | none =>
        rw [hrec] at h
        cases h
      | some res =>
        obtain ⟨q2, d2⟩ := res
        rw [hrec] at h
        rw [Option.some.injEq, Prod.mk.injEq] at h
        obtain ⟨hq1, hd⟩ := h
        subst hq1
        subst hd
        obtain ⟨dropped, hq, hexpall, hdisc, hhead⟩ := ih q2 d2 hrec
        refine ⟨rb :: dropped, by simp [hq], ?_, ?_, hhead⟩
        · intro x hx
          rcases List.mem_cons.mp hx with h | h
          · exact h ▸ hexp
          · exact hexpall x h
        · simp only [Bool.or_eq_true, beq_iff_eq, hdisc, List.mem_cons]
          constructor
          · rintro (h | h)
            · exact Or.inr h
            · exact Or.inl h.symm
          · rintro (h | h)
            · exact Or.inr h.symm
            · exact Or.inl h
    · rw [if_neg hexp] at h
      cases h
      refine ⟨[], by simp, by simp, by simp, ?_⟩
      intro x hx
      unfold first at hx
      simp at hx
      exact hx ▸ hexp

/-- Claim C5: the expiry scan performed at the start of `sendBatch`
removes exactly a prefix of batches whose `expiresAt` is earlier than the
current time, leaves an unexpired batch (if any) at the head, and sets the
discard flag exactly when the just-arrived batch was among the removed
prefix; and when the arriving batch was discarded by the scan (and no
longer sits in the remaining queue) the write service is never called on
it during that `sendBatch` call. -/
theorem sendBatch_expire_scan :
    (∀ (heap : Heap) (now : Int) (b : Nat) (q q1 : List Nat) (d : Bool),
      checkExpired heap now b q = some (q1, d) →
        ∃ dropped, q = dropped ++ q1 ∧
          (∀ x ∈ dropped, (heapGet heap x).expires < now) ∧
          (d = true ↔ b ∈ dropped) ∧
          (∀ h ∈ first q1, ¬ (heapGet heap h).expires < now)) ∧
    (∀ (o : WriteOptions) (cb : Option (String → WriteError → Nat → Bool)) (s : WState)
      (b : Nat) (now : Int) (perror : Option WriteError) (r : Nat) (out : SBOut)
      (q1 : List Nat),
      sendBatch o cb s b now perror r = some out →
      checkExpired s.heap now b s.queue = some (q1, true) →
      b ∉ q1 → Event.wroteService b ∉ out.events) := by
  constructor
  · intro heap now b q q1 d h
    unfold checkExpired at h
    split at h
    · cases h
      refine ⟨[], by simp, by simp, by simp, ?_⟩
      intro x hx
      rename_i hq
      rw [(queueIsEmpty_iff q).mp hq] at hx
      unfold first at hx
      simp at hx
    · exact expiredScan_decomp heap now b q q1 d h
  · intro o cb s b now perror r out q1 hsb hscan hnot
    unfold sendBatch at hsb
    rw [hscan] at hsb
    simp only [] at hsb
    by_cases h1 : 0 < s.retryAttempts ∧ (heapGet s.heap b).retryAttempts = 0
    · rw [if_pos h1] at hsb
      cases hp : queuePush s.limit q1 b with
      | none =>
        rw [hp] at hsb
        cases hsb
      | some res =>
        obtain ⟨q2, ov⟩ := res
        rw [hp] at hsb
        cases hsb
        simp
    · rw [if_neg h1] at hsb
      by_cases h2 : 0 < s.retryDelay ∧ now < s.lastWriteAttempt + (s.retryDelay : Int)
      · rw [if_pos h2] at hsb
        by_cases h3 : (heapGet s.heap b).retryAttempts = 0
        · rw [if_pos h3] at hsb
          cases hp : queuePush s.limit q1 b with
          | none =>
            rw [hp] at hsb
            cases hsb
          | some res =>
            obtain ⟨q2, ov⟩ := res
            rw [hp] at hsb
            cases hsb
            simp
        · rw [if_neg h3] at hsb
          cases hsb
          simp
      · rw [if_neg h2] at hsb
        cases hpk : pickBatch (decide (0 < s.retryAttempts)) true b q1 with
        | none =>
          rw [hpk] at hsb
          cases hsb
          simp
        | some bw =>
          have hbw : bw ∈ q1 := pickBatch_discarded_mem _ _ _ _ hpk
          have hne : b ≠ bw := fun hh => hnot (hh ▸ hbw)
          rw [hpk] at hsb
          cases perror with
          | none =>
            dsimp only at hsb
            by_cases h4 : 0 < s.retryAttempts
            · rw [if_pos h4] at hsb
              by_cases h5 : isEmpty (removeIfFirst q1 bw)
              · rw [if_pos h5] at hsb
                cases hsb
                simp [hne]
              · rw [if_neg h5] at hsb
                cases hsb
                simp [hne]
            · rw [if_neg h4] at hsb
              cases hsb
              simp [hne]
          | some e =>
            dsimp only at hsb
            by_cases h4 : o.maxRetries ≠ 0 ∧ retryableError e
            · rw [if_pos h4] at hsb
              cases hrd : failureRetryDelay o e s.retryAttempts r with
              | none =>
                rw [hrd] at hsb
                cases hsb
              | some rd =>
                rw [hrd] at hsb
                dsimp only at hsb
                split at hsb
                · cases hsb
                  simp [hne]
                · by_cases h5 : (heapGet s.heap bw).retryAttempts = 0
                  · rw [if_pos h5] at hsb
                    cases hp : queuePush s.limit q1 b with
                    | none =>
                      rw [hp] at hsb
                      cases hsb
                    | some res =>
                      obtain ⟨q2, ov⟩ := res
                      rw [hp] at hsb
                      cases hsb
                      simp [hne]
                  · rw [if_neg h5] at hsb
                    by_cases h6 : (heapGet s.heap bw).retryAttempts = o.maxRetries
                    · rw [if_pos h6] at hsb
                      cases hsb
                      simp [hne]
                    · rw [if_neg h6] at hsb
                      cases hsb
                      simp [hne]
            · rw [if_neg h4] at hsb
              cases hsb
              simp [hne]

end Write


namespace Write

/-- Witness for C3: a fresh batch arriving while `retryAttempts = 1` is
queued and rejected without any service call. -/
theorem sendBatch_queued_before_new_witness :
    (checkExpired [⟨"x", 0, 100⟩] 50 0 [] = some ([], false) ∧
      0 < 1 ∧ (heapGet [⟨"x", 0, 100⟩] 0).retryAttempts = 0 ∧ 1 ≤ 2) ∧
    ∃ q2 ov, queuePush 2 [] 0 = some (q2, ov) ∧ 0 ∈ q2 ∧
      sendBatch defaultWriteOptions none ⟨[⟨"x", 0, 100⟩], [], 2, 5, 1, 0⟩ 0 50 none 0 =
        some ⟨{ (⟨[⟨"x", 0, 100⟩], [], 2, 5, 1, 0⟩ : WState) with queue := q2 },
              some .emptyRetryQueueFirst, []⟩ := by
  refine ⟨⟨by decide, by decide, by decide, by decide⟩, ?_⟩
  exact sendBatch_queued_before_new defaultWriteOptions none
    ⟨[⟨"x", 0, 100⟩], [], 2, 5, 1, 0⟩ 0 50 none 0 [] false
    (by decide) (by decide) (by decide) (by decide)

/-- Witness for C6: a successful retry of the sole queued batch resets the
counters and empties the queue. -/
theorem sendBatch_success_resets_witness :
    (checkExpired [⟨"x", 1, 1000⟩] 100 0 [0] = some ([0], false) ∧
      ¬ (0 < 1 ∧ (heapGet [⟨"x", 1, 1000⟩] 0).retryAttempts = 0) ∧
      ¬ (0 < 5 ∧ (100 : Int) < 0 + (5 : Nat)) ∧
      pickBatch (decide (0 < 1)) false 0 [0] = some 0) ∧
    ∃ out, sendBatch defaultWriteOptions none ⟨[⟨"x", 1, 1000⟩], [0], 2, 5, 1, 0⟩ 0 100 none 0 =
        some out ∧
      out.res = none ∧ out.state.retryAttempts = 0 ∧
      (0 < (1 : Nat) →
        out.state.queue = removeIfFirst [0] 0 ∧
        (removeIfFirst [0] 0 = [] →
          out.state.retryDelay = 0 ∧ out.events = [.wroteService 0]) ∧
        (removeIfFirst [0] 0 ≠ [] →
          out.state.retryDelay = 1 ∧
          out.events = [.wroteService 0, .scheduledRetry ((removeIfFirst [0] 0).headD 0) 1])) ∧
      (¬ 0 < (1 : Nat) →
        out.state.queue = [0] ∧ out.state.retryDelay = 0 ∧
        out.events = [.wroteService 0]) := by
  refine ⟨⟨by decide, by decide, by decide, by decide⟩, ?_⟩
  exact sendBatch_success_resets defaultWriteOptions none
    ⟨[⟨"x", 1, 1000⟩], [0], 2, 5, 1, 0⟩ 0 0 100 0 [0] false
    (by decide) (by decide) (by decide) (by decide)

/-- Witness for C5: an expired front batch (which is the arriving batch)
is dropped and never written; the unexpired second batch is written
instead. -/
theorem sendBatch_expire_scan_witness :
    (∃ dropped, ([0, 1] : List Nat) = dropped ++ [1] ∧
      (∀ x ∈ dropped, (heapGet [⟨"a", 2, 1⟩, ⟨"b", 1, 10⟩] x).expires < (5 : Int)) ∧
      (true = true ↔ 0 ∈ dropped) ∧
      (∀ h ∈ first [1], ¬ (heapGet [⟨"a", 2, 1⟩, ⟨"b", 1, 10⟩] h).expires < (5 : Int))) ∧
    Event.wroteService 0 ∉
      ((⟨⟨[⟨"a", 2, 1⟩, ⟨"b", 1, 10⟩], [], 4, 0, 0, 5⟩, none,
        [.wroteService 1]⟩ : SBOut)).events := by
  constructor
  · exact sendBatch_expire_scan.1 [⟨"a", 2, 1⟩, ⟨"b", 1, 10⟩] 5 0 [0, 1] [1] true (by decide)
  · exact sendBatch_expire_scan.2 defaultWriteOptions none
      ⟨[⟨"a", 2, 1⟩, ⟨"b", 1, 10⟩], [0, 1], 4, 0, 1, 0⟩ 0 5 none 0
      ⟨⟨[⟨"a", 2, 1⟩, ⟨"b", 1, 10⟩], [], 4, 0, 0, 5⟩, none, [.wroteService 1]⟩ [1]
      (by decide) (by decide) (by decide)

end Write


namespace Write

/-- Claim C4 counterexample: a batch whose `retryAttempts` already equals
`maxRetries = 5` fails with retryable status 500 while `maxRetries` is
non-zero, yet `sendBatch` discards it: the resulting queue is empty and no
retry is scheduled (the only event is the service call), refuting "kept
for retrying if and only if maxRetries is non-zero and the error is
retryable". -/
theorem sendBatch_retry_keep_counterexample :
    defaultWriteOptions.maxRetries ≠ 0 ∧ retryableError ⟨500, 0⟩ ∧
    sendBatch defaultWriteOptions none ⟨[⟨"x", 5, 1000⟩], [0], 2, 5, 5, 0⟩ 0 100
        (some ⟨500, 0⟩) 0 =
      some ⟨⟨[⟨"x", 6, 1000⟩], [], 2, 125000, 6, 100⟩,
            some (.writeFailed 6 ⟨500, 0⟩), [.wroteService 0]⟩ := by
  refine ⟨by decide, by decide, by decide⟩

/-- Claim C4 (amended): for a failed write with no failure callback set:
if `maxRetries` is zero or the error is fatal (status not 0 and < 429) the
error is returned, the queue is unchanged and nothing is scheduled; if
`maxRetries` is non-zero and the error is retryable (status 0 or >= 429),
a batch with `attempts = 0` is pushed onto the queue and scheduled for
retry, a batch with `0 < attempts != maxRetries` stays in the queue, and a
batch whose `attempts` equal `maxRetries` is removed from the queue front
and not rescheduled. -/
theorem sendBatch_failure_classification (o : WriteOptions) (s : WState) (b : Nat)
    (now : Int) (e : WriteError) (r : Nat) (q1 : List Nat) (rd : Nat)
    (hscan : checkExpired s.heap now b s.queue = some (q1, false))
    (hng1 : ¬ (0 < s.retryAttempts ∧ (heapGet s.heap b).retryAttempts = 0))
    (hng2 : ¬ (0 < s.retryDelay ∧ now < s.lastWriteAttempt + (s.retryDelay : Int)))
    (hrd : failureRetryDelay o e s.retryAttempts r = some rd)
    (hlimit : 1 ≤ s.limit) :
    (¬ (o.maxRetries ≠ 0 ∧ retryableError e) →
      sendBatch o none s b now (some e) r =
        some ⟨{ s with queue := q1, lastWriteAttempt := now },
              some (.writeFailed (heapGet s.heap b).retryAttempts e),
              [.wroteService b]⟩) ∧
    (o.maxRetries ≠ 0 → retryableError e → (heapGet s.heap b).retryAttempts = 0 →
      ∃ q2 ov, queuePush s.limit q1 b = some (q2, ov) ∧ b ∈ q2 ∧
        sendBatch o none s b now (some e) r =
          some ⟨{ s with
                  queue := q2, retryDelay := rd,
                  heap := heapSet s.heap b
                    { heapGet s.heap b with
                      retryAttempts := (heapGet s.heap b).retryAttempts + 1 },
                  retryAttempts := s.retryAttempts + 1, lastWriteAttempt := now },
                some (.writeFailed ((heapGet s.heap b).retryAttempts + 1) e),
                [.wroteService b, .scheduledRetry b rd]⟩) ∧
    (o.maxRetries ≠ 0 → retryableError e → 0 < (heapGet s.heap b).retryAttempts →
      (heapGet s.heap b).retryAttempts ≠ o.maxRetries →
      sendBatch o none s b now (some e) r =
        some ⟨{ s with
                queue := q1, retryDelay := rd,
                heap := heapSet s.heap b
                  { heapGet s.heap b with
                    retryAttempts := (heapGet s.heap b).retryAttempts + 1 },
                retryAttempts := s.retryAttempts + 1, lastWriteAttempt := now },
              some (.writeFailed ((heapGet s.heap b).retryAttempts + 1) e),
              [.wroteService b]⟩) ∧
    (o.maxRetries ≠ 0 → retryableError e → (heapGet s.heap b).retryAttempts = o.maxRetries →
      sendBatch o none s b now (some e) r =
        some ⟨{ s with
                queue := removeIfFirst q1 b, retryDelay := rd,
                heap := heapSet s.heap b
                  { heapGet s.heap b with
                    retryAttempts := (heapGet s.heap b).retryAttempts + 1 },
                retryAttempts := s.retryAttempts + 1, lastWriteAttempt := now },
              some (.writeFailed ((heapGet s.heap b).retryAttempts + 1) e),
              [.wroteService b]⟩) := by
  have hpk : pickBatch (decide (0 < s.retryAttempts)) false b q1 = some b := rfl
  refine ⟨?_, ?_, ?_, ?_⟩
  · intro hmr
    unfold sendBatch
    rw [hscan]
    simp only []
    rw [if_neg hng1, if_neg hng2, hpk]
    dsimp only
    rw [if_neg hmr]
  · intro hmr hre hat
    obtain ⟨q2, ov, hpush, hmem⟩ := queuePush_mem s.limit q1 b hlimit
    refine ⟨q2, ov, hpush, hmem, ?_⟩
    unfold sendBatch
    rw [hscan]
    simp only []
    rw [if_neg hng1, if_neg hng2, hpk]
    dsimp only
    rw [if_pos ⟨hmr, hre⟩, hrd]
    dsimp only
    rw [if_neg Bool.false_ne_true, if_pos hat, hpush]
  · intro hmr hre hat hmax
    unfold sendBatch
    rw [hscan]
    simp only []
    rw [if_neg hng1, if_neg hng2, hpk]
    dsimp only
    rw [if_pos ⟨hmr, hre⟩, hrd]
    dsimp only
    rw [if_neg Bool.false_ne_true, if_neg (by omega), if_neg hmax]
  · intro hmr hre hat
    unfold sendBatch
    rw [hscan]
    simp only []
    rw [if_neg hng1, if_neg hng2, hpk]
    dsimp only
    rw [if_pos ⟨hmr, hre⟩, hrd]
    dsimp only
    have hz : ¬ (heapGet s.heap b).retryAttempts = 0 := by
      intro hzero
      exact absurd (hzero ▸ hat).symm hmr
    rw [if_neg Bool.false_ne_true, if_neg hz, if_pos hat]

end Write


namespace Write

/-- Witness for C4 (amended), max-retries case: the counterexample
scenario evaluated through the amended theorem. -/
theorem sendBatch_failure_classification_witness :
    (checkExpired [⟨"x", 5, 1000⟩] 100 0 [0] = some ([0], false) ∧
      ¬ (0 < 5 ∧ (heapGet [⟨"x", 5, 1000⟩] 0).retryAttempts = 0) ∧
      ¬ (0 < 5 ∧ (100 : Int) < 0 + (5 : Nat)) ∧
      failureRetryDelay defaultWriteOptions ⟨500, 0⟩ 5 0 = some 125000 ∧ 1 ≤ 2 ∧
      defaultWriteOptions.maxRetries ≠ 0 ∧ retryableError ⟨500, 0⟩ ∧
      (heapGet [⟨"x", 5, 1000⟩] 0).retryAttempts = defaultWriteOptions.maxRetries) ∧
    sendBatch defaultWriteOptions none ⟨[⟨"x", 5, 1000⟩], [0], 2, 5, 5, 0⟩ 0 100
        (some ⟨500, 0⟩) 0 =
      some ⟨{ (⟨[⟨"x", 5, 1000⟩], [0], 2, 5, 5, 0⟩ : WState) with
              queue := removeIfFirst [0] 0, retryDelay := 125000,
              heap := heapSet [⟨"x", 5, 1000⟩] 0
                { heapGet [⟨"x", 5, 1000⟩] 0 with
                  retryAttempts := (heapGet [⟨"x", 5, 1000⟩] 0).retryAttempts + 1 },
              retryAttempts := 5 + 1, lastWriteAttempt := 100 },
            some (.writeFailed ((heapGet [⟨"x", 5, 1000⟩] 0).retryAttempts + 1) ⟨500, 0⟩),
            [.wroteService 0]⟩ := by
  refine ⟨⟨by decide, by decide, by decide, by decide, by decide, by decide, by decide,
    by decide⟩, ?_⟩
  exact (sendBatch_failure_classification defaultWriteOptions
    ⟨[⟨"x", 5, 1000⟩], [0], 2, 5, 5, 0⟩ 0 100 ⟨500, 0⟩ 0 [0] 125000
    (by decide) (by decide) (by decide) (by decide) (by decide)).2.2.2
    (by decide) (by decide) (by decide)

end Write


namespace AnnotatedCSV

/-- Default values used by positional (`getD`) statements. -/
def emptyColumn : Column := ⟨"", "", false, ""⟩

/-- The always-succeeding converter, used as a `getD` placeholder. -/
def idSetter : Setter := fun s => .ok s

lemma decodeRow_error_aux :
    ∀ (cols : List Column) (setters : List Setter) (row : List String) (line i : Nat)
      (cause : String),
      setters.length = cols.length → row.length = cols.length → i < cols.length →
      (∀ j, j < i → ∃ v, (setters.getD j idSetter)
        (stringTernary (row.getD j "") ((cols.getD j emptyColumn).default)) = .ok v) →
      (setters.getD i idSetter)
        (stringTernary (row.getD i "") ((cols.getD i emptyColumn).default)) = .error cause →
      decodeRow setters cols row line =
        .error (convErrMsg (stringTernary (row.getD i "") ((cols.getD i emptyColumn).default))
          ((cols.getD i emptyColumn).type) line cause) := by
  intro cols
  induction cols with
  | nil =>
    intro setters row line i cause hs hrow hi hok hfail
    exact absurd hi (by simp)
  | cons col ct ih =>
    intro setters row line i cause hs hrow hi hok hfail
    cases setters with
    | nil => exact absurd hs (by simp)
    | cons setter st =>
      cases row with
      | nil => exact absurd hrow (by simp)
      | cons cell rt =>
        cases i with
        | zero =>
          simp only [List.getD_cons_zero] at hfail ⊢
          unfold decodeRow convertColumnValue
          dsimp only
          rw [hfail]
        | succ n =>
          obtain ⟨v, hv⟩ := hok 0 (Nat.succ_pos n)
          simp only [List.getD_cons_zero] at hv
          simp only [List.getD_cons_succ] at hfail ⊢
          unfold decodeRow convertColumnValue
          dsimp only
          rw [hv]
          have hrec := ih st rt line n cause (by simpa using hs) (by simpa using hrow)
            (by simpa using hi)
            (fun j hj => by simpa using hok (j + 1) (by omega)) hfail
          rw [hrec]

/-- Claim C7: for every column with a destination, the decoder applies
the cached converter to the cell after substituting the column default for
an empty cell (`stringTernary "" default = default`), and when the first
failing converter is at column `i` with cause `cause`, the row decode
error is exactly
`cannot convert value "<v>" to type "<T>" at line <N>: <cause>` naming the
(possibly substituted) cell text, the declared column type and the
tokenizer line number. -/
theorem convert_error_wrapping (setters : List Setter) (cols : List Column)
    (row : List String) (line : Nat) (i : Nat) (cause : String)
    (hs : setters.length = cols.length) (hrow : row.length = cols.length)
    (hi : i < cols.length)
    (hok : ∀ j, j < i → ∃ v, (setters.getD j idSetter)
      (stringTernary (row.getD j "") ((cols.getD j emptyColumn).default)) = .ok v)
    (hfail : (setters.getD i idSetter)
      (stringTernary (row.getD i "") ((cols.getD i emptyColumn).default)) = .error cause) :
    stringTernary "" ((cols.getD i emptyColumn).default) = (cols.getD i emptyColumn).default ∧
    decodeRow setters cols row line =
      .error (convErrMsg (stringTernary (row.getD i "") ((cols.getD i emptyColumn).default))
        ((cols.getD i emptyColumn).type) line cause) := by
  constructor
  · simp [stringTernary]
  · exact decodeRow_error_aux cols setters row line i cause hs hrow hi hok hfail

/-- Witness for C7 reproducing scenario S6: column type `long`, cell
`"1.0"`, line 4. -/
theorem convert_error_wrapping_witness :
    (([fun _ => Except.error "parse"] : List Setter).length = 1 ∧ (0 : Nat) < 1 ∧
      (([fun _ => Except.error "parse"] : List Setter).getD 0 idSetter)
        (stringTernary ((["1.0"] : List String).getD 0 "")
          (([⟨"index", "long", true, ""⟩] : List Column).getD 0 emptyColumn).default) =
        .error "parse") ∧
    decodeRow [fun _ => Except.error "parse"] [⟨"index", "long", true, ""⟩] ["1.0"] 4 =
      .error "cannot convert value \"1.0\" to type \"long\" at line 4: parse" := by
  refine ⟨⟨rfl, by decide, rfl⟩, ?_⟩
  have h := (convert_error_wrapping [fun _ => Except.error "parse"]
    [⟨"index", "long", true, ""⟩] ["1.0"] 4 0 "parse" rfl rfl (by decide)
    (fun j hj => absurd hj (by omega)) rfl).2
  exact h

end AnnotatedCSV


namespace AnnotatedCSV

lemma convLookup_kString (c : ColType) : convLookup c .kString = some .sString := by
  cases c <;> rfl

lemma fieldSetters_string (cols : List Column) :
    fieldSetters cols (fun _ => some FieldKind.kString) =
      .ok (cols.map fun _ => some SetterTag.sString) := by
  induction cols with
  | nil => rfl
  | cons col ct ih =>
    unfold fieldSetters
    dsimp only
    rw [convLookup_kString, ih]
    dsimp only [List.map_cons]

lemma decodeRow_string_ok :
    ∀ (cols : List Column) (row : List String) (line : Nat),
      row.length = cols.length →
      ∀ (tags : List (Option SetterTag)), tags = (cols.map fun _ => some SetterTag.sString) →
      decodeRow (tags.map fun t =>
          match t with
          | some tag => interpStringSetter tag
          | none => fun s => .ok s) cols row line =
        .ok (List.zipWith (fun cell col => stringTernary cell col.default) row cols) := by
  intro cols
  induction cols with
  | nil =>
    intro row line h tags htags
    subst htags
    cases row with
    | nil => rfl
    | cons cell rt => simp at h
  | cons col ct ih =>
    intro row line h tags htags
    subst htags
    cases row with
    | nil => simp at h
    | cons cell rt =>
      have hhead : convertColumnValue (interpStringSetter SetterTag.sString) cell col line =
          .ok (stringTernary cell col.default) := rfl
      simp only [List.map_cons]
      unfold decodeRow
      rw [hhead]
      dsimp only
      rw [ih rt line (by simpa using h) _ rfl]
      rfl

/-- Claim C8: decoding any current row (any column types, including
unrecognized names, which fall back to the string column type) into a
pointer to a slice of `string` succeeds: the conversion matrix resolves
every `(columnType, string)` pair to `toString` and the per-cell string
conversion never fails. -/
theorem decodeStringSlice_never_fails (cols : List Column) (row : List String)
    (existing : List String) (line : Nat) (hrow : row.length = cols.length) :
    ∃ vs, decodeStringSlice cols row existing line = .ok vs := by
  unfold decodeStringSlice
  rw [fieldSetters_string]
  dsimp only
  rw [decodeRow_string_ok cols row line hrow _ rfl]
  exact ⟨_, rfl⟩

/-- Witness for C8 on a three-column section with an unrecognized column
type name. -/
theorem decodeStringSlice_never_fails_witness :
    ((["", "-1", "zzz"] : List String).length =
      ([⟨"result", "string", false, "_result"⟩, ⟨"index", "long", true, ""⟩,
        ⟨"w", "weird", false, ""⟩] : List Column).length) ∧
    ∃ vs, decodeStringSlice
        [⟨"result", "string", false, "_result"⟩, ⟨"index", "long", true, ""⟩,
          ⟨"w", "weird", false, ""⟩] ["", "-1", "zzz"] [] 7 = .ok vs := by
  refine ⟨by decide, ?_⟩
  exact decodeStringSlice_never_fails _ _ [] 7 (by decide)

end AnnotatedCSV


namespace AnnotatedCSV

lemma zipTernary_getD :
    ∀ (row : List String) (cols : List Column) (i : Nat),
      i < cols.length → row.length = cols.length →
      (List.zipWith (fun cell col => stringTernary cell col.default) row cols).getD i "" =
        stringTernary (row.getD i "") ((cols.getD i emptyColumn).default) := by
  intro row
  induction row with
  | nil =>
    intro cols i hi h
    simp at h
    omega
  | cons cell rt ih =>
    intro cols i hi h
    cases cols with
    | nil => simp at hi
    | cons col ct =>
      cases i with
      | zero => simp [List.zipWith_cons_cons, List.getD_cons_zero]
      | succ n =>
        simp only [List.zipWith_cons_cons, List.getD_cons_succ]
        exact ih ct n (by simpa using hi) (by simpa using h)

lemma getD_drop_str (l : List String) (c i : Nat) :
    (l.drop c).getD i "" = l.getD (c + i) "" := by
  simp [List.getD_eq_getElem?_getD, List.getElem?_drop]

/-- Claim C9 counterexample: decoding a one-column row into an existing
slice of length 2 succeeds but leaves the slice at length 2, not the
column count 1: `Reader.Decode` only grows a nil-or-shorter slice and
never truncates a longer one. -/
theorem decode_slice_length_counterexample :
    decodeStringSlice [⟨"a", "string", false, ""⟩] ["x"] ["p", "q"] 1 = .ok ["x", "q"] ∧
    ¬ ((["x", "q"] : List String).length =
        ([⟨"a", "string", false, ""⟩] : List Column).length) := by
  exact ⟨rfl, by decide⟩

/-- Claim C9 (amended): after a successful decode into a pointer to a
slice, the slice has length `max (column count) (previous length)`: it is
sized to the column count when the existing slice was nil or shorter
(fresh storage), otherwise the existing storage is reused at its previous
length; element `i < column count` holds the decoded value of column `i`
(the cell with default substitution), and any trailing elements keep their
previous values. -/
theorem decodeStringSlice_sizing (cols : List Column) (row existing : List String)
    (line : Nat) (hrow : row.length = cols.length) :
    ∃ vs, decodeStringSlice cols row existing line = .ok vs ∧
      vs.length = max cols.length existing.length ∧
      (∀ i, i < cols.length →
        vs.getD i "" = stringTernary (row.getD i "") ((cols.getD i emptyColumn).default)) ∧
      (∀ i, cols.length ≤ i → vs.getD i "" = existing.getD i "") := by
  have hzl : (List.zipWith (fun cell col => stringTernary cell col.default) row cols).length
      = cols.length := by
    rw [List.length_zipWith, hrow, Nat.min_self]
  have hdec : decodeStringSlice cols row existing line =
      .ok (List.zipWith (fun cell col => stringTernary cell col.default) row cols ++
        (if existing.length < cols.length then List.replicate cols.length ""
         else existing).drop cols.length) := by
    unfold decodeStringSlice
    rw [fieldSetters_string]
    dsimp only
    rw [decodeRow_string_ok cols row line hrow _ rfl]
  refine ⟨_, hdec, ?_, ?_, ?_⟩
  · by_cases hc : existing.length < cols.length
    · simp [hc, hzl]
      omega
    · simp [hc, hzl]
      omega
  · intro i hi
    rw [List.getD_append _ _ _ i (by rw [hzl]; exact hi)]
    exact zipTernary_getD row cols i hi hrow
  · intro i hi
    rw [List.getD_append_right _ _ _ i (by rw [hzl]; exact hi), hzl]
    by_cases hc : existing.length < cols.length
    · rw [if_pos hc]
      rw [List.getD_eq_default _ _ (by simp)]
      rw [List.getD_eq_default _ _ (by omega)]
    · rw [if_neg hc]
      rw [getD_drop_str]
      congr 1
      omega

end AnnotatedCSV


namespace AnnotatedCSV

/-- Witness for C9 (amended): one column decoded into a length-2 slice. -/
theorem decodeStringSlice_sizing_witness :
    ((["x"] : List String).length = ([⟨"a", "string", false, ""⟩] : List Column).length) ∧
    ∃ vs, decodeStringSlice [⟨"a", "string", false, ""⟩] ["x"] ["p", "q"] 1 = .ok vs ∧
      vs.length = max ([⟨"a", "string", false, ""⟩] : List Column).length
        (["p", "q"] : List String).length ∧
      (∀ i, i < ([⟨"a", "string", false, ""⟩] : List Column).length →
        vs.getD i "" = stringTernary ((["x"] : List String).getD i "")
          (([⟨"a", "string", false, ""⟩] : List Column).getD i emptyColumn).default) ∧
      (∀ i, ([⟨"a", "string", false, ""⟩] : List Column).length ≤ i →
        vs.getD i "" = (["p", "q"] : List String).getD i "") := by
  refine ⟨by decide, ?_⟩
  exact decodeStringSlice_sizing [⟨"a", "string", false, ""⟩] ["x"] ["p", "q"] 1 (by decide)

end AnnotatedCSV
